import Mathlib

/-!
Shallow embedding of the DICOM worklist SCP core (CDICOMWorklistSCP.cpp /
CDICOMWorklistSCP.h): the indexed dataset store (Worklist), dirty tracking
and persistence, the SCPStatus tracker with its ScopedStatus RAII guard, the
server facade operations and the DIMSE query hook.

Modelling conventions:
- a DcmDataset is opaque: we model it as a Nat (its content identity);
  a shared pointer that may be null becomes an Option.
- the unordered index map becomes an association list with unique keys
  (the map itself guarantees key uniqueness in C++);
  the ordered free-index set becomes a strictly sorted list of Nat.
- the filesystem is a function from path to optional file content; whether a
  saveFile call succeeds is an environment oracle (saveOk), and wall-clock
  derived strings (timestamps, generated file names) are passed in as inputs.
- save loops additionally report, as a ghost trace, the list of paths on
  which a saveFile call was issued (the attempts list).
-/

set_option autoImplicit false

namespace WLSCP

/-- Opaque dataset content (DcmDataset is not interpreted by the core). -/
abbrev Dataset := Nat

/-- One worklist entry: dataset pointer (possibly null), persistence file
name, and the dirty flag. Mirrors DICOMWorklistSCP::Worklist::Item. -/
structure Item where
  dataset : Option Dataset
  fileName : String
  dirty : Bool
deriving DecidableEq

/-- The filesystem as a map from path to optional content. -/
def FS := String → Option Dataset

/-- Writing a file replaces the content at that path. -/
def fsWrite (fs : FS) (p : String) (d : Dataset) : FS :=
  fun q => if q = p then some d else fs q

/-- Removing a file clears the content at that path. -/
def fsRemove (fs : FS) (p : String) : FS :=
  fun q => if q = p then none else fs q

/-- The empty filesystem. -/
def fsEmpty : FS := fun _ => none

/-- The configured data folder (Worklist field initializer). -/
def dataFolder : String := "./worklist/"

/-- Full path of an item file: dataFolder_ + item->fileName_. -/
def Item.path (it : Item) : String := dataFolder ++ it.fileName

-- ------------------------------------------------------------------
-- Association-list helpers modelling std::unordered_map<int, Item*>
-- ------------------------------------------------------------------

section AssocMap

variable {α : Type}

/-- Lookup by key (map find). -/
def lookupKey : List (Nat × α) → Nat → Option α
  | [], _ => none
  | (j, jt) :: rest, i => if i = j then some jt else lookupKey rest i

/-- Map write indexMap[i] = v: replace existing binding, else append. -/
def setKey : List (Nat × α) → Nat → α → List (Nat × α)
  | [], i, v => [(i, v)]
  | (j, jt) :: rest, i, v =>
      if i = j then (i, v) :: rest else (j, jt) :: setKey rest i v

/-- Map erase by key (removes the unique binding if present). -/
def eraseKey : List (Nat × α) → Nat → List (Nat × α)
  | [], _ => []
  | (j, jt) :: rest, i => if i = j then rest else (j, jt) :: eraseKey rest i

/-- The list of keys of the map. -/
def keys (m : List (Nat × α)) : List Nat := m.map Prod.fst

end AssocMap


-- ------------------------------------------------------------------
-- Sorted insertion modelling std::set<int>::insert
-- ------------------------------------------------------------------

/-- Insertion into a strictly ascending list (std::set is ordered and
ignores duplicates). -/
def insertSorted (i : Nat) : List Nat → List Nat
  | [] => [i]
  | j :: rest =>
      if i < j then i :: j :: rest
      else if i = j then j :: rest
      else j :: insertSorted i rest


-- ------------------------------------------------------------------
-- SCPStatus (DICOMWorklistSCP::SCPStatus)
-- ------------------------------------------------------------------

/-- Server status: running flag, DIMSE request counter, human-readable
status text, accumulated error log. -/
structure SCPStatus where
  isRunning : Bool
  requestCount : Nat
  statusText : String
  lastErrors : String
deriving DecidableEq

/-- Default-constructed status (false, 0, Idle, empty log). -/
def SCPStatus.init : SCPStatus :=
  { isRunning := false, requestCount := 0, statusText := "Idle", lastErrors := "" }

/-- SCPStatus::error: append a timestamped message to the error log.
The wall-clock timestamp string is an input of the model. -/
def SCPStatus.error (st : SCPStatus) (ts msg : String) : SCPStatus :=
  { st with lastErrors := st.lastErrors ++ "\n\t" ++ ts ++ " Error: " ++ msg }

/-- The fixed layout of the rendered snapshot up to the error section. -/
def SCPStatus.header (st : SCPStatus) : String :=
  "Running: " ++ (if st.isRunning then "true" else "false") ++
  "\n Requests: " ++ toString st.requestCount ++
  "\n State: " ++ st.statusText ++
  "\n Last Errors: "

/-- SCPStatus::ToString: renders the snapshot (printing None when the log is
empty) and clears the error log; returns the string and the updated state. -/
def SCPStatus.ToString (st : SCPStatus) : String × SCPStatus :=
  (st.header ++ (if st.lastErrors = "" then "None" else st.lastErrors),
   { st with lastErrors := "" })

-- ------------------------------------------------------------------
-- ScopedStatus (RAII guard), split into its constructor and destructor
-- ------------------------------------------------------------------

/-- ScopedStatus constructor body: overwrite the status text with the
processing banner. The previous text is saved by the caller. -/
def scopedEnter (st : SCPStatus) (actionName : String) : SCPStatus :=
  { st with statusText :=
      if actionName = "" then "Processing" else "Processing: " ++ actionName }

/-- ScopedStatus destructor: if the registered final text equals None,
restore the saved previous text, otherwise apply the final text. -/
def scopedExit (prev final : String) (st : SCPStatus) : SCPStatus :=
  { st with statusText := if final = "None" then prev else final }

-- ------------------------------------------------------------------
-- Worklist (DICOMWorklistSCP::Worklist)
-- ------------------------------------------------------------------

/-- The dataset store: index map plus recycled-index set. -/
structure Worklist where
  indexMap : List (Nat × Item)
  freeIndexes : List Nat
deriving DecidableEq

/-- A freshly constructed, empty store. -/
def emptyWL : Worklist := { indexMap := [], freeIndexes := [] }

/-- Worklist::count: size of the index map. -/
def Worklist.count (w : Worklist) : Nat := w.indexMap.length

/-- Worklist::operator[]: lookup by index, null pointer when absent. -/
def Worklist.getItem (w : Worklist) (i : Nat) : Option Item :=
  lookupKey w.indexMap i

/-- Worklist::getFreeIndex: reuse the smallest recycled index if any,
otherwise use the current map size. -/
def Worklist.getFreeIndex (w : Worklist) : Nat × Worklist :=
  match w.freeIndexes with
  | [] => (w.indexMap.length, w)
  | i :: rest => (i, { w with freeIndexes := rest })

/-- Shared insertion core of Worklist::add and the per-file insertion in
Worklist::loadAllDatasets: take a free index and bind the item to it. -/
def Worklist.insertNew (w : Worklist) (it : Item) : Nat × Worklist :=
  let r := w.getFreeIndex
  (r.1, { r.2 with indexMap := setKey r.2.indexMap r.1 it })

/-- Worklist::add: wrap the dataset in a dirty item under a generated file
name (name generation is wall-clock based, so the name is an input). -/
def Worklist.add (w : Worklist) (d : Option Dataset) (name : String) :
    Nat × Worklist :=
  w.insertNew { dataset := d, fileName := name, dirty := true }

/-- Worklist::remove: delete the backing file if present, drop the entry and
recycle its index; false when the index is unknown. -/
def Worklist.remove (w : Worklist) (i : Nat) (fs : FS) :
    Bool × Worklist × FS :=
  match lookupKey w.indexMap i with
  | none => (false, w, fs)
  | some it =>
      (true,
       { indexMap := eraseKey w.indexMap i,
         freeIndexes := insertSorted i w.freeIndexes },
       fsRemove fs it.path)

/-- Worklist::markDatasetDirty: set the dirty flag when present. -/
def Worklist.markDatasetDirty (w : Worklist) (i : Nat) : Bool × Worklist :=
  match lookupKey w.indexMap i with
  | none => (false, w)
  | some it =>
      (true, { w with indexMap := setKey w.indexMap i { it with dirty := true } })

/-- Worklist::saveDatasetInFile: save one entry; absent index or null
dataset is a silent false; on success clear dirty and write the file; on
failure log and leave the entry untouched. The saveOk oracle models
whether the disk write succeeds. -/
def Worklist.saveDatasetInFile (w : Worklist) (i : Nat)
    (saveOk : String → Bool) (ts : String) (fs : FS) (st : SCPStatus) :
    Bool × Worklist × FS × SCPStatus :=
  match lookupKey w.indexMap i with
  | none => (false, w, fs, st)
  | some it =>
      match it.dataset with
      | none => (false, w, fs, st)
      | some d =>
          if saveOk it.path then
            (true,
             { w with indexMap := setKey w.indexMap i { it with dirty := false } },
             fsWrite fs it.path d, st)
          else
            (false, w, fs, st.error ts ("Failed to save: " ++ it.fileName))

/-- Result of a bulk save pass: updated entries, filesystem, status, the
overall success flag, and (as a ghost trace) the paths on which a saveFile
call was issued. -/
structure SaveOut where
  entries : List (Nat × Item)
  fs : FS
  status : SCPStatus
  success : Bool
  attempts : List String

/-- Per-entry outcome of one bulk save pass on an item: skipped when the
dataset is null, or (in the dirty-only pass) when the item is clean;
otherwise dirty is cleared exactly when the write succeeds. -/
def saveStep (dirtyOnly : Bool) (saveOk : String → Bool) (it : Item) : Item :=
  match it.dataset with
  | none => it
  | some _ =>
      if dirtyOnly && !it.dirty then it
      else if saveOk it.path then { it with dirty := false } else it

/-- The common loop of Worklist::saveAllDatasetsInFile (dirtyOnly = false)
and Worklist::saveDirtyDatasetsInFile (dirtyOnly = true): iterate the map,
skip null datasets (and clean items in the dirty-only pass), write each
remaining entry, clear dirty on success, log and drop the success flag on
failure. -/
def saveLoop (dirtyOnly : Bool) (saveOk : String → Bool) (ts : String) :
    List (Nat × Item) → FS → SCPStatus → SaveOut
  | [], fs, st =>
      { entries := [], fs := fs, status := st, success := true, attempts := [] }
  | (i, it) :: rest, fs, st =>
      match it.dataset with
      | none =>
          let r := saveLoop dirtyOnly saveOk ts rest fs st
          { r with entries := (i, it) :: r.entries }
      | some d =>
          if dirtyOnly && !it.dirty then
            let r := saveLoop dirtyOnly saveOk ts rest fs st
            { r with entries := (i, it) :: r.entries }
          else if saveOk it.path then
            let r := saveLoop dirtyOnly saveOk ts rest (fsWrite fs it.path d) st
            { r with entries := (i, { it with dirty := false }) :: r.entries,
                     attempts := it.path :: r.attempts }
          else
            let r := saveLoop dirtyOnly saveOk ts rest fs
              (st.error ts ("Failed to save: " ++ it.fileName))
            { r with entries := (i, it) :: r.entries, success := false,
                     attempts := it.path :: r.attempts }

/-- Worklist::saveAllDatasetsInFile: unconditional bulk save. -/
def Worklist.saveAllDatasetsInFile (w : Worklist) (saveOk : String → Bool)
    (ts : String) (fs : FS) (st : SCPStatus) : SaveOut :=
  saveLoop false saveOk ts w.indexMap fs st

/-- Worklist::saveDirtyDatasetsInFile: bulk save skipping clean entries. -/
def Worklist.saveDirtyDatasetsInFile (w : Worklist) (saveOk : String → Bool)
    (ts : String) (fs : FS) (st : SCPStatus) : SaveOut :=
  saveLoop true saveOk ts w.indexMap fs st

/-- The per-entry file deletion loop of Worklist::clear: delete each backing
file that exists, logging (and keeping the file) when deletion fails. -/
def clearLoop (rmOk : String → Bool) (ts : String) :
    List (Nat × Item) → FS → SCPStatus → FS × SCPStatus
  | [], fs, st => (fs, st)
  | (_, it) :: rest, fs, st =>
      if (fs it.path).isSome then
        if rmOk it.path then
          clearLoop rmOk ts rest (fsRemove fs it.path) st
        else
          clearLoop rmOk ts rest fs
            (st.error ts ("Failed to remove file: " ++ it.fileName))
      else clearLoop rmOk ts rest fs st

/-- Worklist::clear: delete all backing files (best effort), then reset the
index map and the reuse pool. -/
def Worklist.clear (w : Worklist) (rmOk : String → Bool) (ts : String)
    (fs : FS) (st : SCPStatus) : Worklist × FS × SCPStatus :=
  let r := clearLoop rmOk ts w.indexMap fs st
  ({ indexMap := [], freeIndexes := [] }, r.1, r.2)

/-- The directory scan of Worklist::loadAllDatasets: the folder contents and
each per-file parse outcome are inputs (file name, parsed dataset or parse
failure). Every parsed file is inserted clean under a fresh index; every
parse failure is logged. Also returns the loaded count. -/
def loadLoop (ts : String) :
    List (String × Option Dataset) → Worklist → SCPStatus → Nat →
    Worklist × SCPStatus × Nat
  | [], w, st, cnt => (w, st, cnt)
  | (name, parsed) :: rest, w, st, cnt =>
      match parsed with
      | some d =>
          let r := w.insertNew { dataset := some d, fileName := name, dirty := false }
          loadLoop ts rest r.2 st (cnt + 1)
      | none =>
          loadLoop ts rest w
            (st.error ts ("[Worklist] Failed to load: " ++ name)) cnt

/-- Worklist::loadAllDatasets: scan the folder and report whether at least
one file loaded. -/
def Worklist.loadAllDatasets (w : Worklist)
    (files : List (String × Option Dataset)) (ts : String) (st : SCPStatus) :
    Bool × Worklist × SCPStatus :=
  let r := loadLoop ts files w st 0
  (decide (0 < r.2.2), r.1, r.2.1)

-- ------------------------------------------------------------------
-- DIMSE messages for the query hook
-- ------------------------------------------------------------------

/-- The fields of a C-FIND request that the hook reads. -/
structure FindRQ where
  messageID : Nat
  affectedSOPClassUID : String
deriving DecidableEq

/-- An incoming DIMSE message: either a C-FIND request or any other
command (kept opaque, tagged by its raw command field). -/
inductive DimseMsg where
  | cfindRQ (rq : FindRQ)
  | other (raw : Nat)
deriving DecidableEq

/-- STATUS_Success. -/
def statusSuccess : Nat := 0

/-- The C-FIND response the hook constructs; dataSetPresent is false for
DIMSE_DATASET_NULL. -/
structure FindRSP where
  messageIDBeingRespondedTo : Nat
  dimseStatus : Nat
  dataSetPresent : Bool
  affectedSOPClassUID : String
deriving DecidableEq

/-- Externally visible calls into the network layer. -/
inductive NetAction where
  | configure
  | openPort
  | spawnAcceptThread
  | stopAssociation
  | sendFindResponse (resp : FindRSP)
  | delegate (msg : DimseMsg)
deriving DecidableEq

/-- Result returned by the DIMSE hook. -/
inductive HandleResult where
  | illegalCall
  | sendResult (ok : Bool)
  | baseResult (ok : Bool)
deriving DecidableEq

-- ------------------------------------------------------------------
-- Server facade (DICOMWorklistSCP)
-- ------------------------------------------------------------------

/-- The server object: template path, status tracker, dataset store. The
mutex serializes the facade operations, so each of them is one atomic
state transition here. -/
structure Server where
  templateFile : String
  serverStatus : SCPStatus
  datasets : Worklist
deriving DecidableEq

/-- Field-wise initial state of a server object (before the constructor
body runs loadAllDatasets). -/
def Server.init : Server :=
  { templateFile := "", serverStatus := SCPStatus.init, datasets := emptyWL }

/-- The content of a default-constructed DcmDataset (opaque). -/
def emptyDataset : Dataset := 0

/-- DICOMWorklistSCP::setTemplateFile. Whether the path exists on disk is
an environment input. -/
def Server.setTemplateFile (srv : Server) (fileName : String)
    (fileExists : Bool) : Bool × Server :=
  let prev := srv.serverStatus.statusText
  let st1 := scopedEnter srv.serverStatus "Template file setting"
  (fileExists,
   { srv with templateFile := fileName, serverStatus := scopedExit prev "None" st1 })

/-- DICOMWorklistSCP::addDataset. The output parameter is modelled by
ptrValid; templateParse is the outcome of loading the configured template
(consulted only when a template path is set). The function performs no
null check on the output parameter: when ptrValid is false the store has
already been grown and the write through the null pointer is undefined
behaviour, modelled as none. -/
def Server.addDataset (srv : Server) (ptrValid : Bool)
    (templateParse : Option Dataset) (name : String) :
    Option (Bool × Server × Nat) :=
  let prev := srv.serverStatus.statusText
  let st1 := scopedEnter srv.serverStatus "Adding a dataset"
  let d : Dataset :=
    if srv.templateFile ≠ "" then
      match templateParse with
      | some t => t
      | none => emptyDataset
    else emptyDataset
  let r := srv.datasets.add (some d) name
  if ptrValid then
    some (true,
      { srv with serverStatus := scopedExit prev "None" st1, datasets := r.2 },
      r.1)
  else none

/-- DICOMWorklistSCP::deleteDataset. -/
def Server.deleteDataset (srv : Server) (i : Nat) (fs : FS) :
    Bool × Server × FS :=
  let prev := srv.serverStatus.statusText
  let st1 := scopedEnter srv.serverStatus "Deleting a dataset"
  let r := srv.datasets.remove i fs
  (r.1,
   { srv with serverStatus := scopedExit prev "None" st1, datasets := r.2.1 },
   r.2.2)

/-- DICOMWorklistSCP::getDatasetCount: an invalid output parameter returns
false before the lock and the guard are even entered. -/
def Server.getDatasetCount (srv : Server) (ptrValid : Bool) :
    Bool × Server × Option Nat :=
  if !ptrValid then (false, srv, none)
  else
    let prev := srv.serverStatus.statusText
    let st1 := scopedEnter srv.serverStatus "Getting dataset count"
    (true, { srv with serverStatus := scopedExit prev "None" st1 },
     some srv.datasets.count)

/-- DICOMWorklistSCP::getDataset. -/
def Server.getDataset (srv : Server) (i : Nat) : Option Dataset × Server :=
  let prev := srv.serverStatus.statusText
  let st1 := scopedEnter srv.serverStatus "Getting dataset"
  ((match srv.datasets.getItem i with
    | some it => it.dataset
    | none => none),
   { srv with serverStatus := scopedExit prev "None" st1 })

/-- DICOMWorklistSCP::clearAllDatasets. -/
def Server.clearAllDatasets (srv : Server) (rmOk : String → Bool)
    (ts : String) (fs : FS) : Bool × Server × FS :=
  let prev := srv.serverStatus.statusText
  let st1 := scopedEnter srv.serverStatus "Clearing the list"
  let r := srv.datasets.clear rmOk ts fs st1
  (true,
   { srv with serverStatus := scopedExit prev "None" r.2.2, datasets := r.1 },
   r.2.1)

/-- DICOMWorklistSCP::start. If already running, return true at once;
otherwise configure the transport, open the listening port (success is the
openOk input), spawn the accept thread and register the Listening final
status on success. -/
def Server.start (srv : Server) (openOk : Bool) :
    Bool × Server × List NetAction :=
  let prev := srv.serverStatus.statusText
  let st1 := scopedEnter srv.serverStatus "Starting"
  if st1.isRunning then
    (true, { srv with serverStatus := scopedExit prev "None" st1 }, [])
  else if openOk then
    (true,
     { srv with serverStatus := scopedExit prev "Listening" { st1 with isRunning := true } },
     [NetAction.configure, NetAction.openPort, NetAction.spawnAcceptThread])
  else
    (false, { srv with serverStatus := scopedExit prev "None" st1 },
     [NetAction.configure, NetAction.openPort])

/-- DICOMWorklistSCP::stop: guard constructed with the final text Idle;
returns true at once when not running. -/
def Server.stop (srv : Server) : Bool × Server × List NetAction :=
  let prev := srv.serverStatus.statusText
  let st1 := scopedEnter srv.serverStatus "Stopping"
  if !st1.isRunning then
    (true, { srv with serverStatus := scopedExit prev "Idle" st1 }, [])
  else
    (true,
     { srv with serverStatus := scopedExit prev "Idle" { st1 with isRunning := false } },
     [NetAction.stopAssociation])

/-- DICOMWorklistSCP::getStatus: renders the status snapshot. Note that
this operation takes the lock but does not construct a ScopedStatus. -/
def Server.getStatus (srv : Server) : String × Server :=
  let r := srv.serverStatus.ToString
  (r.1, { srv with serverStatus := r.2 })

/-- DICOMWorklistSCP::markDatasetDirty. -/
def Server.markDatasetDirty (srv : Server) (i : Nat) : Bool × Server :=
  let prev := srv.serverStatus.statusText
  let st1 := scopedEnter srv.serverStatus "Marking dataset as dirty"
  let r := srv.datasets.markDatasetDirty i
  (r.1, { srv with serverStatus := scopedExit prev "None" st1, datasets := r.2 })

/-- DICOMWorklistSCP::saveDataset. -/
def Server.saveDataset (srv : Server) (i : Nat) (saveOk : String → Bool)
    (ts : String) (fs : FS) : Bool × Server × FS :=
  let prev := srv.serverStatus.statusText
  let st1 := scopedEnter srv.serverStatus "Saving a dataset by index"
  let r := srv.datasets.saveDatasetInFile i saveOk ts fs st1
  (r.1,
   { srv with serverStatus := scopedExit prev "None" r.2.2.2, datasets := r.2.1 },
   r.2.2.1)

/-- DICOMWorklistSCP::saveAllDatasets. -/
def Server.saveAllDatasets (srv : Server) (saveOk : String → Bool)
    (ts : String) (fs : FS) : Bool × Server × FS :=
  let prev := srv.serverStatus.statusText
  let st1 := scopedEnter srv.serverStatus "Saving all datasets"
  let out := srv.datasets.saveAllDatasetsInFile saveOk ts fs st1
  (out.success,
   { srv with serverStatus := scopedExit prev "None" out.status,
              datasets := { srv.datasets with indexMap := out.entries } },
   out.fs)

/-- DICOMWorklistSCP::saveDirtyDatasets. -/
def Server.saveDirtyDatasets (srv : Server) (saveOk : String → Bool)
    (ts : String) (fs : FS) : Bool × Server × FS :=
  let prev := srv.serverStatus.statusText
  let st1 := scopedEnter srv.serverStatus "Saving dirty datasets"
  let out := srv.datasets.saveDirtyDatasetsInFile saveOk ts fs st1
  (out.success,
   { srv with serverStatus := scopedExit prev "None" out.status,
              datasets := { srv.datasets with indexMap := out.entries } },
   out.fs)

/-- DICOMWorklistSCP::loadAllDatasets (private, called by the constructor). -/
def Server.loadAllDatasets (srv : Server)
    (files : List (String × Option Dataset)) (ts : String) : Bool × Server :=
  let prev := srv.serverStatus.statusText
  let st1 := scopedEnter srv.serverStatus "Loading all datasets from file"
  let r := srv.datasets.loadAllDatasets files ts st1
  (r.1,
   { srv with serverStatus := scopedExit prev "None" r.2.2, datasets := r.2.1 })

/-- DICOMWorklistSCP::DICOMWorklistSCP: the constructor creates the data
folder and loads every file already present in it. -/
def Server.construct (files : List (String × Option Dataset)) (ts : String) :
    Server :=
  (Server.init.loadAllDatasets files ts).2

/-- DICOMWorklistSCP::handleIncomingCommand: count the request, fail with
EC_IllegalCall on a null message, answer a C-FIND with a single success /
no-data response echoing the affected SOP class UID, and delegate every
other command to the DcmSCP base handler. The results of sendDIMSEMessage
and of the base handler are environment inputs. -/
def Server.handleIncomingCommand (srv : Server) (msg : Option DimseMsg)
    (sendOk : Bool) (baseOk : Bool) :
    HandleResult × Server × List NetAction :=
  let srv1 := { srv with serverStatus :=
    { srv.serverStatus with requestCount := srv.serverStatus.requestCount + 1 } }
  match msg with
  | none => (HandleResult.illegalCall, srv1, [])
  | some (DimseMsg.cfindRQ rq) =>
      (HandleResult.sendResult sendOk, srv1,
       [NetAction.sendFindResponse
         { messageIDBeingRespondedTo := rq.messageID,
           dimseStatus := statusSuccess,
           dataSetPresent := false,
           affectedSOPClassUID := rq.affectedSOPClassUID }])
  | some (DimseMsg.other raw) =>
      (HandleResult.baseResult baseOk, srv1,
       [NetAction.delegate (DimseMsg.other raw)])

-- ------------------------------------------------------------------
-- Sequences of store-mutating operations and the index invariant
-- ------------------------------------------------------------------

/-- One store-mutating operation together with its environment inputs. -/
inductive WOp where
  | addOp (d : Option Dataset) (name : String)
  | removeOp (i : Nat)
  | loadOp (files : List (String × Option Dataset)) (ts : String)
  | clearOp (rmOk : String → Bool) (ts : String)

/-- Apply one operation to the store, the filesystem and the status log. -/
def applyOp : Worklist × FS × SCPStatus → WOp → Worklist × FS × SCPStatus
  | (w, fs, st), WOp.addOp d name => ((w.add d name).2, fs, st)
  | (w, fs, st), WOp.removeOp i =>
      let r := w.remove i fs
      (r.2.1, r.2.2, st)
  | (w, fs, st), WOp.loadOp files ts =>
      let r := w.loadAllDatasets files ts st
      (r.2.1, fs, r.2.2)
  | (w, fs, st), WOp.clearOp rmOk ts =>
      let r := w.clear rmOk ts fs st
      (r.1, r.2.1, r.2.2)

/-- Run a sequence of operations. -/
def runOps (s : Worklist × FS × SCPStatus) : List WOp → Worklist × FS × SCPStatus
  | [] => s
  | op :: rest => runOps (applyOp s op) rest

/-- The empty store over the empty filesystem. -/
def initState : Worklist × FS × SCPStatus := (emptyWL, fsEmpty, SCPStatus.init)

/-- The store invariant: the recycled indices are strictly ascending, and
the assigned keys together with the recycled indices are exactly the
indices below the high-water mark. It implies that keys are unique and
that no recycled index is simultaneously assigned. -/
def WLinv (w : Worklist) : Prop :=
  w.freeIndexes.Sorted (· < ·) ∧
  (keys w.indexMap ++ w.freeIndexes).Perm
    (List.range (w.indexMap.length + w.freeIndexes.length))
/-- The condition under which a bulk save pass issues a saveFile call for
an item (the negation of the continue condition in the loop body). -/
def attemptedB (dirtyOnly : Bool) (it : Item) : Bool :=
  it.dataset.isSome && (!dirtyOnly || it.dirty)

-- ------------------------------------------------------------------
-- Concrete fixtures used by the witness theorems
-- ------------------------------------------------------------------

/-- A dirty one-dataset item named f. -/
def itemFdirty : Item := { dataset := some 1, fileName := "f", dirty := true }

/-- A clean item named f. -/
def itemFclean : Item := { dataset := some 1, fileName := "f", dirty := false }

/-- A dirty item named g. -/
def itemGdirty : Item := { dataset := some 2, fileName := "g", dirty := true }

/-- A store holding the single dirty item f at index 0. -/
def wlF : Worklist := { indexMap := [(0, itemFdirty)], freeIndexes := [] }

/-- A store holding the clean f at index 0 and the dirty g at index 1. -/
def wlFG : Worklist :=
  { indexMap := [(0, itemFclean), (1, itemGdirty)], freeIndexes := [] }

/-- A store with live indices 0 and 1 and no recycled indices. -/
def wlXY : Worklist :=
  { indexMap :=
      [(0, { dataset := some 5, fileName := "x", dirty := true }),
       (1, { dataset := some 6, fileName := "y", dirty := true })],
    freeIndexes := [] }

/-- A disk on which every write succeeds. -/
def alwaysOk : String → Bool := fun _ => true

/-- A fresh server whose running flag is set. -/
def srvRunning : Server :=
  { Server.init with serverStatus := { SCPStatus.init with isRunning := true } }

/-- A disk on which only the write to the file g fails. -/
def failOnG : String → Bool := fun p => decide (p ≠ dataFolder ++ "g")

-- ------------------------------------------------------------------
-- Lemma zone: everything below is theorems
-- ------------------------------------------------------------------

section AssocMapLemmas

variable {α : Type}

@[simp] theorem keys_nil : keys ([] : List (Nat × α)) = [] := rfl

@[simp] theorem keys_cons (p : Nat × α) (m : List (Nat × α)) :
    keys (p :: m) = p.1 :: keys m := rfl

theorem lookupKey_eq_none {m : List (Nat × α)} {i : Nat} :
    lookupKey m i = none ↔ i ∉ keys m := by
  induction m with
  | nil => simp [lookupKey]
  | cons p rest ih =>
      obtain ⟨j, jt⟩ := p
      by_cases h : i = j <;> simp [lookupKey, h, ih]

theorem lookupKey_isSome {m : List (Nat × α)} {i : Nat} :
    (lookupKey m i).isSome = true ↔ i ∈ keys m := by
  induction m with
  | nil => simp [lookupKey]
  | cons p rest ih =>
      obtain ⟨j, jt⟩ := p
      by_cases h : i = j <;> simp [lookupKey, h, ih]

theorem lookupKey_setKey_self (m : List (Nat × α)) (i : Nat) (v : α) :
    lookupKey (setKey m i v) i = some v := by
  induction m with
  | nil => simp [setKey, lookupKey]
  | cons p rest ih =>
      obtain ⟨j, jt⟩ := p
      by_cases h : i = j <;> simp [setKey, lookupKey, h, ih]

theorem lookupKey_setKey_ne (m : List (Nat × α)) {i j : Nat} (v : α)
    (h : j ≠ i) : lookupKey (setKey m i v) j = lookupKey m j := by
  induction m with
  | nil => simp [setKey, lookupKey, h]
  | cons p rest ih =>
      obtain ⟨k, kt⟩ := p
      by_cases hik : i = k
      · subst hik
        simp [setKey, lookupKey, h]
      · by_cases hjk : j = k <;> simp [setKey, lookupKey, hik, hjk, ih]

theorem setKey_of_not_mem {m : List (Nat × α)} {i : Nat} (v : α)
    (h : i ∉ keys m) : setKey m i v = m ++ [(i, v)] := by
  induction m with
  | nil => simp [setKey]
  | cons p rest ih =>
      obtain ⟨j, jt⟩ := p
      simp only [keys_cons, List.mem_cons] at h
      push_neg at h
      simp [setKey, h.1, ih h.2]

theorem eraseKey_of_not_mem {m : List (Nat × α)} {i : Nat}
    (h : i ∉ keys m) : eraseKey m i = m := by
  induction m with
  | nil => simp [eraseKey]
  | cons p rest ih =>
      obtain ⟨j, jt⟩ := p
      simp only [keys_cons, List.mem_cons] at h
      push_neg at h
      simp [eraseKey, h.1, ih h.2]

theorem keys_perm_eraseKey {m : List (Nat × α)} {i : Nat}
    (h : i ∈ keys m) : (keys m).Perm (i :: keys (eraseKey m i)) := by
  induction m with
  | nil => simp at h
  | cons p rest ih =>
      obtain ⟨j, jt⟩ := p
      by_cases hij : i = j
      · subst hij
        simp only [eraseKey, if_pos rfl, keys_cons]
        exact List.Perm.refl _
      · simp only [keys_cons, List.mem_cons] at h
        rcases h with h | h
        · exact absurd h hij
        · have h1 : (j :: keys rest).Perm (j :: i :: keys (eraseKey rest i)) :=
            (ih h).cons j
          have h2 : (j :: i :: keys (eraseKey rest i)).Perm
              (i :: j :: keys (eraseKey rest i)) := List.Perm.swap i j _
          simpa [eraseKey, hij] using h1.trans h2

end AssocMapLemmas

theorem mem_insertSorted {k i : Nat} {l : List Nat} :
    k ∈ insertSorted i l ↔ k = i ∨ k ∈ l := by
  induction l with
  | nil => simp [insertSorted]
  | cons j rest ih =>
      by_cases h1 : i < j
      · simp [insertSorted, h1]
      · by_cases h2 : i = j
        · subst h2
          simp only [insertSorted, if_neg h1, eq_self_iff_true, if_true,
            List.mem_cons]
          tauto
        · simp only [insertSorted, if_neg h1, if_neg h2, List.mem_cons, ih]
          tauto

theorem sorted_insertSorted {i : Nat} {l : List Nat}
    (h : l.Sorted (· < ·)) : (insertSorted i l).Sorted (· < ·) := by
  induction l with
  | nil => simp [insertSorted]
  | cons j rest ih =>
      rw [List.sorted_cons] at h
      by_cases h1 : i < j
      · rw [insertSorted, if_pos h1, List.sorted_cons]
        refine ⟨?_, List.sorted_cons.mpr h⟩
        intro b hb
        rcases List.mem_cons.mp hb with rfl | hb
        · exact h1
        · exact h1.trans (h.1 b hb)
      · by_cases h2 : i = j
        · rw [insertSorted, if_neg h1, if_pos h2]
          exact List.sorted_cons.mpr h
        · have hji : j < i := by omega
          rw [insertSorted, if_neg h1, if_neg h2, List.sorted_cons]
          refine ⟨?_, ih h.2⟩
          intro b hb
          rcases mem_insertSorted.mp hb with rfl | hb
          · exact hji
          · exact h.1 b hb

theorem perm_insertSorted {i : Nat} {l : List Nat} (h : i ∉ l) :
    (insertSorted i l).Perm (i :: l) := by
  induction l with
  | nil => simp [insertSorted]
  | cons j rest ih =>
      simp only [List.mem_cons] at h
      push_neg at h
      by_cases h1 : i < j
      · rw [insertSorted, if_pos h1]
      · rw [insertSorted, if_neg h1, if_neg h.1]
        exact ((ih h.2).cons j).trans (List.Perm.swap i j rest)

theorem insertSorted_of_forall_lt {i : Nat} {l : List Nat}
    (h : ∀ j ∈ l, i < j) : insertSorted i l = i :: l := by
  cases l with
  | nil => rfl
  | cons j rest =>
      rw [insertSorted, if_pos (h j (List.mem_cons_self j rest))]


theorem emptyWL_WLinv : WLinv emptyWL := by
  constructor
  · exact List.sorted_nil
  · simp [emptyWL, keys]

theorem WLinv_nodup_append {w : Worklist} (h : WLinv w) :
    (keys w.indexMap ++ w.freeIndexes).Nodup :=
  h.2.nodup_iff.mpr (List.nodup_range _)

theorem insertNew_eq_nil {w : Worklist} (h : w.freeIndexes = []) (it : Item) :
    w.insertNew it =
      (w.indexMap.length,
       { indexMap := setKey w.indexMap w.indexMap.length it, freeIndexes := [] }) := by
  cases w
  simp_all [Worklist.insertNew, Worklist.getFreeIndex]

theorem insertNew_eq_cons {w : Worklist} {f : Nat} {rest : List Nat}
    (h : w.freeIndexes = f :: rest) (it : Item) :
    w.insertNew it =
      (f, { indexMap := setKey w.indexMap f it, freeIndexes := rest }) := by
  cases w
  simp_all [Worklist.insertNew, Worklist.getFreeIndex]

theorem insertNew_WLinv {w : Worklist} (h : WLinv w) (it : Item) :
    WLinv (w.insertNew it).2 := by
  obtain ⟨hs, hp⟩ := h
  cases hfree : w.freeIndexes with
  | nil =>
      rw [insertNew_eq_nil hfree it]
      have hperm : (keys w.indexMap).Perm (List.range w.indexMap.length) := by
        simpa [hfree] using hp
      have hnot : w.indexMap.length ∉ keys w.indexMap := by
        intro hmem
        have := List.mem_range.mp (hperm.mem_iff.mp hmem)
        omega
      constructor
      · exact List.sorted_nil
      · rw [setKey_of_not_mem it hnot]
        simp only [keys, List.map_append, List.length_append, List.map_cons,
          List.map_nil, List.length_cons, List.length_nil, List.append_nil]
        rw [List.range_succ]
        exact hperm.append_right _
  | cons f rest =>
      rw [insertNew_eq_cons hfree it]
      have hnodup : (keys w.indexMap ++ (f :: rest)).Nodup := by
        rw [← hfree]
        exact (hp.nodup_iff).mpr (List.nodup_range _)
      have hdisj := (List.nodup_append.mp hnodup).2.2
      have hnot : f ∉ keys w.indexMap := fun hm =>
        hdisj hm (List.mem_cons_self f rest)
      have hs' : rest.Sorted (· < ·) := by
        rw [hfree] at hs
        exact (List.sorted_cons.mp hs).2
      constructor
      · exact hs'
      · rw [setKey_of_not_mem it hnot]
        simp only [keys, List.map_append, List.length_append, List.map_cons,
          List.map_nil, List.length_cons, List.length_nil]
        have harith : w.indexMap.length + 1 + rest.length =
            w.indexMap.length + (f :: rest).length := by
          simp only [List.length_cons]
          omega
        rw [List.append_assoc, List.singleton_append, harith, ← hfree]
        rw [hfree]
        rw [hfree] at hp
        simpa [List.length_cons] using hp

theorem add_WLinv {w : Worklist} (h : WLinv w) (d : Option Dataset)
    (name : String) : WLinv (w.add d name).2 :=
  insertNew_WLinv h _

theorem remove_WLinv {w : Worklist} (h : WLinv w) (i : Nat) (fs : FS) :
    WLinv (w.remove i fs).2.1 := by
  cases hl : lookupKey w.indexMap i with
  | none => simpa [Worklist.remove, hl] using h
  | some it =>
      have hmem : i ∈ keys w.indexMap := by
        rw [← lookupKey_isSome, hl]
        rfl
      obtain ⟨hs, hp⟩ := h
      have hnodup := hp.nodup_iff.mpr (List.nodup_range _)
      have hdisj := (List.nodup_append.mp hnodup).2.2
      have hif : i ∉ w.freeIndexes := fun hin => hdisj hmem hin
      have hk := keys_perm_eraseKey hmem
      have hf := perm_insertSorted hif
      have hklen : w.indexMap.length = (eraseKey w.indexMap i).length + 1 := by
        have h1 := hk.length_eq
        simpa [keys, List.length_map] using h1
      have hflen : (insertSorted i w.freeIndexes).length =
          w.freeIndexes.length + 1 := by
        simpa using hf.length_eq
      simp only [Worklist.remove, hl]
      constructor
      · exact sorted_insertSorted hs
      · have hbig :
            (keys (eraseKey w.indexMap i) ++ insertSorted i w.freeIndexes).Perm
              (keys w.indexMap ++ w.freeIndexes) := by
          have s1 :
              (keys (eraseKey w.indexMap i) ++ insertSorted i w.freeIndexes).Perm
                (keys (eraseKey w.indexMap i) ++ (i :: w.freeIndexes)) :=
            List.Perm.append_left _ hf
          have s2 :
              (keys (eraseKey w.indexMap i) ++ (i :: w.freeIndexes)).Perm
                (i :: (keys (eraseKey w.indexMap i) ++ w.freeIndexes)) :=
            List.perm_middle
          have s3 :
              ((i :: keys (eraseKey w.indexMap i)) ++ w.freeIndexes).Perm
                (keys w.indexMap ++ w.freeIndexes) :=
            (hk.symm).append_right _
          exact (s1.trans s2).trans s3
        have harith :
            (eraseKey w.indexMap i).length + (insertSorted i w.freeIndexes).length =
              w.indexMap.length + w.freeIndexes.length := by
          omega
        rw [harith]
        exact hbig.trans hp

theorem clear_WLinv (w : Worklist) (rmOk : String → Bool) (ts : String)
    (fs : FS) (st : SCPStatus) : WLinv (w.clear rmOk ts fs st).1 := by
  constructor
  · exact List.sorted_nil
  · simp [Worklist.clear, keys]

theorem loadLoop_WLinv (ts : String) (files : List (String × Option Dataset)) :
    ∀ (w : Worklist) (st : SCPStatus) (cnt : Nat), WLinv w →
      WLinv (loadLoop ts files w st cnt).1 := by
  induction files with
  | nil => intro w st cnt h; simpa [loadLoop] using h
  | cons p rest ih =>
      intro w st cnt h
      obtain ⟨name, parsed⟩ := p
      cases parsed with
      | none => exact ih _ _ _ h
      | some d => exact ih _ _ _ (insertNew_WLinv h _)

theorem loadAllDatasets_WLinv {w : Worklist} (h : WLinv w)
    (files : List (String × Option Dataset)) (ts : String) (st : SCPStatus) :
    WLinv (w.loadAllDatasets files ts st).2.1 :=
  loadLoop_WLinv ts files w st 0 h

theorem applyOp_WLinv {s : Worklist × FS × SCPStatus} (h : WLinv s.1)
    (op : WOp) : WLinv (applyOp s op).1 := by
  obtain ⟨w, fs, st⟩ := s
  cases op with
  | addOp d name => exact add_WLinv h d name
  | removeOp i => exact remove_WLinv h i fs
  | loadOp files ts => exact loadAllDatasets_WLinv h files ts st
  | clearOp rmOk ts => exact clear_WLinv w rmOk ts fs st

theorem runOps_WLinv (ops : List WOp) :
    ∀ (s : Worklist × FS × SCPStatus), WLinv s.1 → WLinv (runOps s ops).1 := by
  induction ops with
  | nil => intro s h; simpa [runOps] using h
  | cons op rest ih => intro s h; exact ih _ (applyOp_WLinv h op)

-- ------------------------------------------------------------------
-- Characterization of the bulk save loops
-- ------------------------------------------------------------------

theorem lookupKey_mem {α : Type} {m : List (Nat × α)} {i : Nat} {v : α}
    (h : lookupKey m i = some v) : (i, v) ∈ m := by
  induction m with
  | nil => simp [lookupKey] at h
  | cons p rest ih =>
      obtain ⟨j, jt⟩ := p
      by_cases hij : i = j
      · subst hij
        simp only [lookupKey, eq_self_iff_true, if_true, Option.some_inj] at h
        rw [← h]
        exact List.mem_cons_self _ _
      · simp only [lookupKey, if_neg hij] at h
        exact List.mem_cons_of_mem _ (ih h)

theorem lookupKey_map {α β : Type} (f : α → β) (m : List (Nat × α)) (i : Nat) :
    lookupKey (m.map (fun p => (p.1, f p.2))) i = (lookupKey m i).map f := by
  induction m with
  | nil => rfl
  | cons p rest ih =>
      obtain ⟨j, jt⟩ := p
      by_cases h : i = j <;> simp [lookupKey, h, ih]

theorem saveLoop_entries (dirtyOnly : Bool) (saveOk : String → Bool)
    (ts : String) : ∀ (m : List (Nat × Item)) (fs : FS) (st : SCPStatus),
    (saveLoop dirtyOnly saveOk ts m fs st).entries =
      m.map (fun p => (p.1, saveStep dirtyOnly saveOk p.2)) := by
  intro m
  induction m with
  | nil => intro fs st; rfl
  | cons p rest ih =>
      intro fs st
      obtain ⟨i, ds, name, dirty⟩ := p
      cases ds with
      | none => simp [saveLoop, saveStep, ih]
      | some d =>
          by_cases h2 : saveOk (dataFolder ++ name) = true <;>
            cases dirtyOnly <;> cases dirty <;>
              simp [saveLoop, saveStep, Item.path, h2, ih]

theorem saveLoop_attempts (dirtyOnly : Bool) (saveOk : String → Bool)
    (ts : String) : ∀ (m : List (Nat × Item)) (fs : FS) (st : SCPStatus),
    (saveLoop dirtyOnly saveOk ts m fs st).attempts =
      (m.filter (fun p => attemptedB dirtyOnly p.2)).map (fun p => p.2.path) := by
  intro m
  induction m with
  | nil => intro fs st; rfl
  | cons p rest ih =>
      intro fs st
      obtain ⟨i, ds, name, dirty⟩ := p
      cases ds with
      | none => simp [saveLoop, attemptedB, ih]
      | some d =>
          by_cases h2 : saveOk (dataFolder ++ name) = true <;>
            cases dirtyOnly <;> cases dirty <;>
              simp [saveLoop, attemptedB, Item.path, h2, ih]

theorem saveLoop_success (dirtyOnly : Bool) (saveOk : String → Bool)
    (ts : String) : ∀ (m : List (Nat × Item)) (fs : FS) (st : SCPStatus),
    (saveLoop dirtyOnly saveOk ts m fs st).success =
      m.all (fun p => !(attemptedB dirtyOnly p.2) || saveOk p.2.path) := by
  intro m
  induction m with
  | nil => intro fs st; rfl
  | cons p rest ih =>
      intro fs st
      obtain ⟨i, ds, name, dirty⟩ := p
      cases ds with
      | none => simp [saveLoop, attemptedB, ih]
      | some d =>
          by_cases h2 : saveOk (dataFolder ++ name) = true <;>
            cases dirtyOnly <;> cases dirty <;>
              simp [saveLoop, attemptedB, Item.path, h2, ih]

theorem saveLoop_fs_frame (dirtyOnly : Bool) (saveOk : String → Bool)
    (ts : String) : ∀ (m : List (Nat × Item)) (fs : FS) (st : SCPStatus)
    (p : String), p ∉ (saveLoop dirtyOnly saveOk ts m fs st).attempts →
    (saveLoop dirtyOnly saveOk ts m fs st).fs p = fs p := by
  intro m
  induction m with
  | nil => intro fs st p _; rfl
  | cons q rest ih =>
      intro fs st p hp
      obtain ⟨i, it⟩ := q
      cases hds : it.dataset with
      | none =>
          simp only [saveLoop, hds] at hp ⊢
          exact ih fs st p hp
      | some d =>
          by_cases h1 : (dirtyOnly && !it.dirty) = true
          · simp only [saveLoop, hds, if_pos h1] at hp ⊢
            exact ih fs st p hp
          · by_cases h2 : saveOk it.path = true
            · simp only [saveLoop, hds, if_neg h1, if_pos h2,
                List.mem_cons] at hp ⊢
              push_neg at hp
              rw [ih _ st p hp.2]
              simp [fsWrite, hp.1]
            · simp only [saveLoop, hds, if_neg h1, if_neg h2,
                List.mem_cons] at hp ⊢
              push_neg at hp
              exact ih fs _ p hp.2

-- ------------------------------------------------------------------
-- String helpers
-- ------------------------------------------------------------------

theorem path_ne_of_fileName_ne {a b : String} (h : a ≠ b) :
    dataFolder ++ a ≠ dataFolder ++ b := by
  intro he
  apply h
  have hd := congrArg String.data he
  simp only [String.data_append] at hd
  exact String.ext (List.append_cancel_left hd)

theorem error_lastErrors_length (st : SCPStatus) (ts msg : String) :
    (st.error ts msg).lastErrors.length =
      st.lastErrors.length + ts.length + msg.length + 10 := by
  have h2 : ("\n\t" : String).length = 2 := rfl
  have h8 : (" Error: " : String).length = 8 := rfl
  simp only [SCPStatus.error, String.length_append, h2, h8]
  omega

theorem error_lastErrors_ne_empty (st : SCPStatus) (ts msg : String) :
    (st.error ts msg).lastErrors ≠ "" := by
  intro h
  have hl := congrArg String.length h
  rw [error_lastErrors_length] at hl
  simp at hl

-- ------------------------------------------------------------------
-- Claim theorems
-- ------------------------------------------------------------------

/-- Claim C1: index uniqueness and free-list disjointness are invariants
of the store. For every sequence of add, remove, loadAll and clear
operations starting from the empty store, no two simultaneously live
entries share an index (the key list is duplicate free), and the
recycled-index set never contains an index that is simultaneously a key
of the index map. -/
theorem index_uniqueness_invariant (ops : List WOp) :
    (keys (runOps initState ops).1.indexMap).Nodup ∧
    (runOps initState ops).1.freeIndexes.Disjoint
      (keys (runOps initState ops).1.indexMap) := by
  have h := runOps_WLinv ops initState emptyWL_WLinv
  have hnodup := WLinv_nodup_append h
  rw [List.nodup_append] at hnodup
  exact ⟨hnodup.1, hnodup.2.2.symm⟩

theorem insertNew_getItem (w : Worklist) (it : Item) :
    (w.insertNew it).2.getItem (w.insertNew it).1 = some it := by
  cases hfree : w.freeIndexes with
  | nil =>
      rw [insertNew_eq_nil hfree]
      simp [Worklist.getItem, lookupKey_setKey_self]
  | cons f rest =>
      rw [insertNew_eq_cons hfree]
      simp [Worklist.getItem, lookupKey_setKey_self]

/-- Claim C2: index assignment is min-first with recycling. Concretely:
on the empty store the first add returns 0, the second returns 1,
remove(0) then succeeds, the next add returns the recycled index 0, and
the count afterwards is 2. In general, removing index k from a store
whose live indices are exactly 0..n-1 (with k+1 < n) makes the next add
return k rather than n. -/
theorem min_first_index_recycling (w : Worklist) (n k : Nat)
    (d : Option Dataset) (name : String) (fs : FS)
    (hinv : WLinv w) (hlive : (keys w.indexMap).Perm (List.range n))
    (hk : k + 1 < n) :
    ((emptyWL.add (some 0) "a").1 = 0 ∧
     ((emptyWL.add (some 0) "a").2.add (some 0) "b").1 = 1 ∧
     (((emptyWL.add (some 0) "a").2.add (some 0) "b").2.remove 0 fsEmpty).1 = true ∧
     ((((emptyWL.add (some 0) "a").2.add (some 0) "b").2.remove 0
        fsEmpty).2.1.add (some 0) "c").1 = 0 ∧
     ((((emptyWL.add (some 0) "a").2.add (some 0) "b").2.remove 0
        fsEmpty).2.1.add (some 0) "c").2.count = 2) ∧
    ((w.remove k fs).2.1.add d name).1 = k := by
  constructor
  · refine ⟨by decide, by decide, by decide, by decide, by decide⟩
  · have hkmem : k ∈ keys w.indexMap :=
      hlive.mem_iff.mpr (List.mem_range.mpr (by omega))
    obtain ⟨it, hit⟩ : ∃ it, lookupKey w.indexMap k = some it := by
      cases hl : lookupKey w.indexMap k with
      | none => exact absurd (lookupKey_eq_none.mp hl) (by simpa using hkmem)
      | some it => exact ⟨it, rfl⟩
    have hfree_lt : ∀ j ∈ w.freeIndexes, k < j := by
      intro j hj
      have hnodup := WLinv_nodup_append hinv
      rw [List.nodup_append] at hnodup
      have hjk : j ∉ keys w.indexMap := fun hm => hnodup.2.2 hm hj
      have : j ∉ List.range n := fun hr => hjk (hlive.mem_iff.mpr hr)
      rw [List.mem_range] at this
      omega
    have hrem : (w.remove k fs).2.1 =
        { indexMap := eraseKey w.indexMap k,
          freeIndexes := insertSorted k w.freeIndexes } := by
      simp [Worklist.remove, hit]
    have hins : insertSorted k w.freeIndexes = k :: w.freeIndexes :=
      insertSorted_of_forall_lt hfree_lt
    rw [hrem, hins]
    rfl

/-- Witness for C2 at a concrete store: live indices 0 and 1 (n = 2), an
empty free list, removing k = 0 and adding again returns 0. -/
theorem min_first_index_recycling_witness :
    ((emptyWL.add (some 0) "a").1 = 0 ∧
     ((emptyWL.add (some 0) "a").2.add (some 0) "b").1 = 1 ∧
     (((emptyWL.add (some 0) "a").2.add (some 0) "b").2.remove 0 fsEmpty).1 = true ∧
     ((((emptyWL.add (some 0) "a").2.add (some 0) "b").2.remove 0
        fsEmpty).2.1.add (some 0) "c").1 = 0 ∧
     ((((emptyWL.add (some 0) "a").2.add (some 0) "b").2.remove 0
        fsEmpty).2.1.add (some 0) "c").2.count = 2) ∧
    ((wlXY.remove 0 fsEmpty).2.1.add (some 7) "z").1 = 0 :=
  min_first_index_recycling wlXY 2 0 (some 7) "z" fsEmpty
    ⟨by decide, by decide⟩ (by decide) (by decide)

/-- Claim C3: dirty-flag lifecycle. Immediately after add the new entry is
dirty; a successful saveDataset, saveAllDatasets or saveDirtyDatasets that
wrote an entry leaves its dirty flag false; markDatasetDirty on a present
index returns true and sets the flag back, and a subsequent
saveDirtyDatasets attempts to write that entry. -/
theorem dirty_flag_lifecycle (w : Worklist) (i : Nat) (it : Item)
    (d : Dataset) (name : String) (saveOk : String → Bool) (ts : String)
    (fs : FS) (st : SCPStatus)
    (hit : lookupKey w.indexMap i = some it)
    (hd : it.dataset = some d)
    (hok : saveOk it.path = true) :
    ((w.add (some d) name).2.getItem (w.add (some d) name).1 =
      some { dataset := some d, fileName := name, dirty := true }) ∧
    ((w.saveDatasetInFile i saveOk ts fs st).1 = true ∧
     (w.saveDatasetInFile i saveOk ts fs st).2.1.getItem i =
       some { it with dirty := false }) ∧
    (lookupKey (w.saveAllDatasetsInFile saveOk ts fs st).entries i =
      some { it with dirty := false }) ∧
    (it.dirty = true →
      lookupKey (w.saveDirtyDatasetsInFile saveOk ts fs st).entries i =
        some { it with dirty := false }) ∧
    ((w.markDatasetDirty i).1 = true ∧
     (w.markDatasetDirty i).2.getItem i = some { it with dirty := true } ∧
     it.path ∈
       ((w.markDatasetDirty i).2.saveDirtyDatasetsInFile saveOk ts fs st).attempts) := by
  refine ⟨insertNew_getItem w _, ⟨?_, ?_⟩, ?_, ?_, ?_, ?_, ?_⟩
  · simp [Worklist.saveDatasetInFile, hit, hd, hok]
  · simp [Worklist.saveDatasetInFile, hit, hd, hok, Worklist.getItem,
      lookupKey_setKey_self]
  · rw [Worklist.saveAllDatasetsInFile, saveLoop_entries, lookupKey_map, hit]
    simp [saveStep, hd, hok]
  · intro hdirty
    rw [Worklist.saveDirtyDatasetsInFile, saveLoop_entries, lookupKey_map, hit]
    simp [saveStep, hd, hok, hdirty]
  · simp [Worklist.markDatasetDirty, hit]
  · simp [Worklist.markDatasetDirty, hit, Worklist.getItem, lookupKey_setKey_self]
  · have hmem : (i, { it with dirty := true }) ∈
        setKey w.indexMap i { it with dirty := true } :=
      lookupKey_mem (lookupKey_setKey_self w.indexMap i _)
    simp only [Worklist.markDatasetDirty, hit, Worklist.saveDirtyDatasetsInFile,
      saveLoop_attempts]
    refine List.mem_map.mpr ⟨(i, { it with dirty := true }), ?_, rfl⟩
    refine List.mem_filter.mpr ⟨hmem, ?_⟩
    simp [attemptedB, hd]

/-- Witness for C3 on a one-entry store with an always-succeeding disk. -/
theorem dirty_flag_lifecycle_witness :
    ((wlF.add (some 1) "g").2.getItem (wlF.add (some 1) "g").1 =
      some { dataset := some 1, fileName := "g", dirty := true }) ∧
    ((wlF.saveDatasetInFile 0 alwaysOk "ts" fsEmpty SCPStatus.init).1 = true ∧
     (wlF.saveDatasetInFile 0 alwaysOk "ts" fsEmpty SCPStatus.init).2.1.getItem 0 =
       some { itemFdirty with dirty := false }) ∧
    (lookupKey (wlF.saveAllDatasetsInFile alwaysOk "ts" fsEmpty
        SCPStatus.init).entries 0 = some { itemFdirty with dirty := false }) ∧
    (itemFdirty.dirty = true →
      lookupKey (wlF.saveDirtyDatasetsInFile alwaysOk "ts" fsEmpty
          SCPStatus.init).entries 0 = some { itemFdirty with dirty := false }) ∧
    ((wlF.markDatasetDirty 0).1 = true ∧
     (wlF.markDatasetDirty 0).2.getItem 0 = some { itemFdirty with dirty := true } ∧
     itemFdirty.path ∈
       ((wlF.markDatasetDirty 0).2.saveDirtyDatasetsInFile alwaysOk "ts"
         fsEmpty SCPStatus.init).attempts) :=
  dirty_flag_lifecycle wlF 0 itemFdirty 1 "g" alwaysOk "ts" fsEmpty
    SCPStatus.init (by decide) (by decide) (by decide)

/-- Claim C4: saveDirtyDatasets never touches entries whose dirty flag is
false. A clean entry keeps its record, file name and dirty flag, its
backing file content is unchanged and no write is attempted on its path
(given that no dirty entry shares its file name), and the operation
returns true exactly when every save it attempted, namely on dirty entries
with a non-null dataset, succeeded. -/
theorem saveDirty_skips_clean (w : Worklist) (saveOk : String → Bool)
    (ts : String) (fs : FS) (st : SCPStatus) (e : Nat × Item)
    (he : e ∈ w.indexMap) (hclean : e.2.dirty = false)
    (hname : ∀ q ∈ w.indexMap, q.2.dirty = true → q.2.fileName ≠ e.2.fileName) :
    e ∈ (w.saveDirtyDatasetsInFile saveOk ts fs st).entries ∧
    e.2.path ∉ (w.saveDirtyDatasetsInFile saveOk ts fs st).attempts ∧
    (w.saveDirtyDatasetsInFile saveOk ts fs st).fs e.2.path = fs e.2.path ∧
    (w.saveDirtyDatasetsInFile saveOk ts fs st).success =
      w.indexMap.all (fun p => !(attemptedB true p.2) || saveOk p.2.path) := by
  have hstep : saveStep true saveOk e.2 = e.2 := by
    cases hds : e.2.dataset with
    | none => simp [saveStep, hds]
    | some d => simp [saveStep, hds, hclean]
  have hnot : e.2.path ∉ (w.saveDirtyDatasetsInFile saveOk ts fs st).attempts := by
    rw [Worklist.saveDirtyDatasetsInFile, saveLoop_attempts]
    intro hin
    obtain ⟨q, hq, hpath⟩ := List.mem_map.mp hin
    obtain ⟨hqm, hqa⟩ := List.mem_filter.mp hq
    have hqd : q.2.dirty = true := by
      rcases Bool.and_eq_true .. |>.mp hqa with ⟨_, h2⟩
      simpa using h2
    exact path_ne_of_fileName_ne (hname q hqm hqd) hpath
  refine ⟨?_, hnot, ?_, ?_⟩
  · rw [Worklist.saveDirtyDatasetsInFile, saveLoop_entries]
    refine List.mem_map.mpr ⟨e, he, ?_⟩
    rw [hstep]
  · exact saveLoop_fs_frame true saveOk ts w.indexMap fs st e.2.path hnot
  · rw [Worklist.saveDirtyDatasetsInFile, saveLoop_success]

/-- Witness for C4: a store with one clean and one dirty entry with
distinct file names, on a disk where only the write to the dirty entry
path fails. -/
theorem saveDirty_skips_clean_witness :
    (0, itemFclean) ∈
      (wlFG.saveDirtyDatasetsInFile failOnG "ts" fsEmpty SCPStatus.init).entries ∧
    itemFclean.path ∉
      (wlFG.saveDirtyDatasetsInFile failOnG "ts" fsEmpty SCPStatus.init).attempts ∧
    (wlFG.saveDirtyDatasetsInFile failOnG "ts" fsEmpty SCPStatus.init).fs
        itemFclean.path = fsEmpty itemFclean.path ∧
    (wlFG.saveDirtyDatasetsInFile failOnG "ts" fsEmpty SCPStatus.init).success =
      wlFG.indexMap.all (fun p => !(attemptedB true p.2) || failOnG p.2.path) :=
  saveDirty_skips_clean wlFG failOnG "ts" fsEmpty SCPStatus.init
    (0, itemFclean) (by decide) (by decide) (by decide)

/-- Claim C5: status rendering is read-and-clear. After an error is
recorded, the first render prints the accumulated log (which carries the
timestamped message) after the running flag, request count and status
text, and clears the log; a second render with no intervening error
prints None in the error section. -/
theorem render_read_and_clear (st : SCPStatus) (ts msg : String) :
    ((st.error ts msg).ToString.1 =
      (st.error ts msg).header ++
        (st.lastErrors ++ "\n\t" ++ ts ++ " Error: " ++ msg)) ∧
    (st.error ts msg).ToString.2.lastErrors = "" ∧
    (st.error ts msg).ToString.2.ToString.1 =
      (st.error ts msg).header ++ "None" := by
  have hne : (st.error ts msg).lastErrors ≠ "" :=
    error_lastErrors_ne_empty st ts msg
  refine ⟨?_, rfl, ?_⟩
  · simp only [SCPStatus.ToString, if_neg hne]
    rfl
  · rfl

/-- Counterexample for C6: addDataset performs no null check on its output
parameter; with a null pointer the store is grown and then the new index
is written through the null pointer, which is undefined behaviour
(modelled as none) rather than the claimed false return with an unchanged
store. -/
theorem addDataset_null_counterexample :
    Server.init.addDataset false none "n.dcm" = none := rfl

/-- Claim C6 (amended): getDatasetCount with a null output parameter
returns false before even taking the lock, leaves the server (store,
status and error log) unchanged and appends nothing to the error log;
addDataset however never checks its output parameter, so with a null
pointer it does not return false: the write through the pointer is
undefined behaviour. -/
theorem null_output_parameter_contract (srv : Server) (tp : Option Dataset)
    (name : String) :
    srv.getDatasetCount false = (false, srv, none) ∧
    srv.addDataset false tp name = none :=
  ⟨rfl, rfl⟩

/-- For C7: guarded facade operations do not change requestCount; only the
DIMSE hook increments it. On a fresh server, deleteDataset,
getDatasetCount, markDatasetDirty, start, stop and getStatus all leave
the counter at 0, while one handleIncomingCommand call moves it to 1.
This contradicts the ScopedStatus constructor documentation (and the
spec), which say the guard increments the request counter once per
guarded operation. -/
theorem facade_requestCount_unchanged :
    (Server.init.deleteDataset 0 fsEmpty).2.1.serverStatus.requestCount = 0 ∧
    (Server.init.getDatasetCount true).2.1.serverStatus.requestCount = 0 ∧
    (Server.init.markDatasetDirty 0).2.serverStatus.requestCount = 0 ∧
    (Server.init.start true).2.1.serverStatus.requestCount = 0 ∧
    Server.init.stop.2.1.serverStatus.requestCount = 0 ∧
    Server.init.getStatus.2.serverStatus.requestCount = 0 ∧
    (Server.init.handleIncomingCommand none true
      true).2.1.serverStatus.requestCount = 1 :=
  ⟨rfl, rfl, rfl, rfl, rfl, rfl, rfl⟩

/-- Claim C8: query hook behaviour. Every invocation first increments
requestCount; an absent message yields the illegal-call failure and no
network action; a C-FIND request yields exactly one response with success
status, no data set and the affected SOP class identifier the request
carried, with the stored datasets neither modified nor consulted (the
result and actions are independent of the store contents); any other
command is delegated unmodified to the base handler. -/
theorem handleIncomingCommand_behaviour (srv : Server) (w : Worklist)
    (sendOk baseOk : Bool) (rq : FindRQ) (raw : Nat) :
    ((srv.handleIncomingCommand none sendOk baseOk).2.1.serverStatus.requestCount =
      srv.serverStatus.requestCount + 1) ∧
    ((srv.handleIncomingCommand (some (DimseMsg.cfindRQ rq)) sendOk
        baseOk).2.1.serverStatus.requestCount =
      srv.serverStatus.requestCount + 1) ∧
    ((srv.handleIncomingCommand (some (DimseMsg.other raw)) sendOk
        baseOk).2.1.serverStatus.requestCount =
      srv.serverStatus.requestCount + 1) ∧
    ((srv.handleIncomingCommand none sendOk baseOk).1 =
      HandleResult.illegalCall ∧
     (srv.handleIncomingCommand none sendOk baseOk).2.2 = []) ∧
    ((srv.handleIncomingCommand (some (DimseMsg.cfindRQ rq)) sendOk baseOk).2.2 =
      [NetAction.sendFindResponse
        { messageIDBeingRespondedTo := rq.messageID,
          dimseStatus := statusSuccess,
          dataSetPresent := false,
          affectedSOPClassUID := rq.affectedSOPClassUID }] ∧
     (srv.handleIncomingCommand (some (DimseMsg.cfindRQ rq)) sendOk baseOk).1 =
       HandleResult.sendResult sendOk) ∧
    ((srv.handleIncomingCommand (some (DimseMsg.cfindRQ rq)) sendOk
        baseOk).2.1.datasets = srv.datasets) ∧
    (({ srv with datasets := w }.handleIncomingCommand
        (some (DimseMsg.cfindRQ rq)) sendOk baseOk).1 =
      (srv.handleIncomingCommand (some (DimseMsg.cfindRQ rq)) sendOk baseOk).1 ∧
     ({ srv with datasets := w }.handleIncomingCommand
        (some (DimseMsg.cfindRQ rq)) sendOk baseOk).2.2 =
      (srv.handleIncomingCommand (some (DimseMsg.cfindRQ rq)) sendOk baseOk).2.2) ∧
    ((srv.handleIncomingCommand (some (DimseMsg.other raw)) sendOk baseOk).1 =
      HandleResult.baseResult baseOk ∧
     (srv.handleIncomingCommand (some (DimseMsg.other raw)) sendOk baseOk).2.2 =
      [NetAction.delegate (DimseMsg.other raw)] ∧
     (srv.handleIncomingCommand (some (DimseMsg.other raw)) sendOk
        baseOk).2.1.datasets = srv.datasets) :=
  ⟨rfl, rfl, rfl, ⟨rfl, rfl⟩, ⟨rfl, rfl⟩, rfl, ⟨rfl, rfl⟩, rfl, rfl, rfl⟩

/-- Claim C9: lifecycle idempotence. When the server is already running,
start returns true immediately, performs no network configuration and
does not reopen the listening port, and the running flag is unchanged;
when it is not running, stop returns true immediately with no network
action and the running flag unchanged. -/
theorem start_stop_idempotent (srv srv2 : Server) (openOk : Bool)
    (h1 : srv.serverStatus.isRunning = true)
    (h2 : srv2.serverStatus.isRunning = false) :
    (srv.start openOk).1 = true ∧
    (srv.start openOk).2.2 = [] ∧
    (srv.start openOk).2.1.serverStatus.isRunning = srv.serverStatus.isRunning ∧
    (srv.start openOk).2.1.datasets = srv.datasets ∧
    srv2.stop.1 = true ∧
    srv2.stop.2.2 = [] ∧
    srv2.stop.2.1.serverStatus.isRunning = srv2.serverStatus.isRunning := by
  refine ⟨?_, ?_, ?_, ?_, ?_, ?_, ?_⟩ <;>
    simp [Server.start, Server.stop, scopedEnter, scopedExit, h1, h2]

/-- Witness for C9: a running server for the start case and a fresh
stopped server for the stop case. -/
theorem start_stop_idempotent_witness :
    (srvRunning.start true).1 = true ∧
    (srvRunning.start true).2.2 = [] ∧
    (srvRunning.start true).2.1.serverStatus.isRunning =
      srvRunning.serverStatus.isRunning ∧
    (srvRunning.start true).2.1.datasets = srvRunning.datasets ∧
    Server.init.stop.1 = true ∧
    Server.init.stop.2.2 = [] ∧
    Server.init.stop.2.1.serverStatus.isRunning =
      Server.init.serverStatus.isRunning :=
  start_stop_idempotent srvRunning Server.init true (by decide) (by decide)

/-- Claim C10: the literal None is a reserved sentinel of the scoped
status guard destructor. If the registered final text equals None (the
constructor default, or set through changeStatus), the previously saved
text is restored; any other final text overrides the restoration; hence
the destructor can only leave the text None when the saved previous text
was itself None, and the other status fields are untouched. -/
theorem scoped_none_sentinel (prev final : String) (st : SCPStatus) :
    (final = "None" → (scopedExit prev final st).statusText = prev) ∧
    (final ≠ "None" → (scopedExit prev final st).statusText = final) ∧
    ((scopedExit prev final st).statusText = "None" → prev = "None") ∧
    (scopedExit prev final st).isRunning = st.isRunning ∧
    (scopedExit prev final st).requestCount = st.requestCount ∧
    (scopedExit prev final st).lastErrors = st.lastErrors := by
  refine ⟨?_, ?_, ?_, rfl, rfl, rfl⟩
  · intro h; simp [scopedExit, h]
  · intro h; simp [scopedExit, h]
  · intro h
    by_cases hf : final = "None"
    · simpa [scopedExit, hf] using h
    · rw [scopedExit] at h
      simp only [if_neg hf] at h
      exact absurd h hf

/-- Witness for C10 with the default final text None: the previous text
Idle is restored on exit. -/
theorem scoped_none_sentinel_witness :
    ("None" = "None" → (scopedExit "Idle" "None" SCPStatus.init).statusText = "Idle") ∧
    ("None" ≠ "None" → (scopedExit "Idle" "None" SCPStatus.init).statusText = "None") ∧
    ((scopedExit "Idle" "None" SCPStatus.init).statusText = "None" → "Idle" = "None") ∧
    (scopedExit "Idle" "None" SCPStatus.init).isRunning = SCPStatus.init.isRunning ∧
    (scopedExit "Idle" "None" SCPStatus.init).requestCount = SCPStatus.init.requestCount ∧
    (scopedExit "Idle" "None" SCPStatus.init).lastErrors = SCPStatus.init.lastErrors :=
  scoped_none_sentinel "Idle" "None" SCPStatus.init

end WLSCP
